import Mathlib

set_option maxHeartbeats 1000000

/-!
# Verification of the wafer/waffle guest SDK ABI and wire-protocol layer

Shallow embedding of the guest-side runtime adapter (files `types.go`,
`wire.go`, `guest.go`, `helpers.go` and the host-import client) together
with proofs about the wire codec, the pointer/length packing convention,
the exported entry points and the send client.

Modelling conventions:
* Go `[]byte` payloads are `List Nat` with each element < 256; a nil slice
  and an empty slice are both `[]` (the spec normalises absent-vs-empty).
* Go `map[string]string` is an association list `List (String × String)`
  whose order stands for one map iteration order; map assignment is
  modelled as remove-then-append (last write wins).
* JSON text is `List Char`.  `encoding/json` marshalling of the concrete
  wire structs is embedded as explicit rendering functions (struct fields
  in declaration order, Go string escaping, `omitempty` honoured, nil
  slices rendered as `null`).  `json.Unmarshal` of incoming buffers is an
  arbitrary parameter `List Char → Except String _` of the entry-point
  models, since its behaviour belongs to the Go standard library, not to
  this repository.
* Raw linear-memory addresses are `Nat` parameters supplied by the
  environment (`addrOf`), standing for `&data[0]`.
-/

namespace Wafer

/-- `Action` from `types.go`: what the runtime does after a block processes
a message.  Go declares it as an `int` with four constants; the four
constants are the domain values. -/
inductive Action where
  | Continue
  | Respond
  | Drop
  | ActionError
  deriving DecidableEq

/-- `Action.String` from `types.go`: wire-format string of an `Action`.
(The Go `default` branch returns `"continue"` for out-of-range ints; the
inductive has exactly the four declared constants.) -/
def Action.String (a : Action) : String :=
  match a with
  | Action.Continue => "continue"
  | Action.Respond => "respond"
  | Action.Drop => "drop"
  | Action.ActionError => "error"

/-- `ParseAction` from `types.go`: unrecognized strings default to
`Continue`. -/
def ParseAction (s : String) : Action :=
  if s = "continue" then Action.Continue
  else if s = "respond" then Action.Respond
  else if s = "drop" then Action.Drop
  else if s = "error" then Action.ActionError
  else Action.Continue

/-- `InstanceMode` from `types.go`. -/
inductive InstanceMode where
  | PerNode
  | Singleton
  | PerChain
  | PerExecution
  deriving DecidableEq

/-- `InstanceMode.String` from `types.go`. -/
def InstanceMode.String (m : InstanceMode) : String :=
  match m with
  | InstanceMode.PerNode => "per-node"
  | InstanceMode.Singleton => "singleton"
  | InstanceMode.PerChain => "per-chain"
  | InstanceMode.PerExecution => "per-execution"

/-- `ParseInstanceMode` from `types.go`: unrecognized strings default to
`PerNode`. -/
def ParseInstanceMode (s : String) : InstanceMode :=
  if s = "per-node" then InstanceMode.PerNode
  else if s = "singleton" then InstanceMode.Singleton
  else if s = "per-chain" then InstanceMode.PerChain
  else if s = "per-execution" then InstanceMode.PerExecution
  else InstanceMode.PerNode

/-- `LifecycleType` from `types.go`. -/
inductive LifecycleType where
  | Init
  | Start
  | Stop
  deriving DecidableEq

/-- `LifecycleType.String` from `types.go`. -/
def LifecycleType.String (t : LifecycleType) : String :=
  match t with
  | LifecycleType.Init => "init"
  | LifecycleType.Start => "start"
  | LifecycleType.Stop => "stop"

/-- `ParseLifecycleType` from `types.go`: unrecognized strings default to
`Init`. -/
def ParseLifecycleType (s : String) : LifecycleType :=
  if s = "init" then LifecycleType.Init
  else if s = "start" then LifecycleType.Start
  else if s = "stop" then LifecycleType.Stop
  else LifecycleType.Init

/-- `Message` from `types.go`.  `Data` is the `[]byte` payload (bytes as
naturals < 256), `Meta` the `map[string]string` metadata. -/
structure Message where
  Kind : String
  Data : List Nat
  Meta : List (String × String)
  deriving DecidableEq

/-- `Response` from `types.go`. -/
structure Response where
  Data : List Nat
  Meta : List (String × String)
  deriving DecidableEq

/-- `WaferError` from `types.go` (named `WaffleError` in the sibling
generation of the SDK; the structure is identical). -/
structure WaferError where
  Code : String
  Message : String
  Meta : List (String × String)
  deriving DecidableEq

/-- `Result` from `types.go`. -/
structure Result where
  Action : Action
  Response : Option Response
  Err : Option WaferError
  deriving DecidableEq

/-- `BlockInfo` from `types.go`. -/
structure BlockInfo where
  Name : String
  Version : String
  Interface : String
  Summary : String
  InstanceMode : Wafer.InstanceMode
  AllowedModes : List Wafer.InstanceMode
  deriving DecidableEq

/-- `LifecycleEvent` from `types.go`. -/
structure LifecycleEvent where
  «Type» : LifecycleType
  Data : List Nat
  deriving DecidableEq

/-! ## Standard base64 (model of `encoding/base64` `StdEncoding`)

`wire.go` encodes binary payloads with `base64.StdEncoding.EncodeToString`
and decodes them with `base64.StdEncoding.DecodeString`.  The model below
implements the standard alphabet with `=` padding.  Like Go's decoder it
rejects characters outside the alphabet, misplaced padding and inputs
whose (filtered) length is not a multiple of four, and it skips carriage
returns and newlines; like Go's non-strict `StdEncoding` it does not
check that unused padding bits are zero. -/

/-- The standard base64 alphabet. -/
def b64alphabet : List Char :=
  "ABCDEFGHIJKLMNOPQRSTUVWXYZabcdefghijklmnopqrstuvwxyz0123456789+/".toList

/-- Character for a 6-bit group. -/
def encChar (n : Nat) : Char :=
  b64alphabet.getD n 'A'

/-- Index of a character in a list, used to invert the alphabet. -/
def decCharAux (cs : List Char) (c : Char) (i : Nat) : Option Nat :=
  match cs with
  | [] => none
  | c0 :: rest => if c0 = c then some i else decCharAux rest c (i + 1)

/-- 6-bit value of an alphabet character; `none` for characters outside
the alphabet (including `=`). -/
def decChar (c : Char) : Option Nat :=
  decCharAux b64alphabet c 0

/-- Encode bytes in 3-byte groups, padding the final group. -/
def b64encode : List Nat → List Char
  | [] => []
  | [a] => [encChar (a / 4), encChar (a % 4 * 16), '=', '=']
  | [a, b] => [encChar (a / 4), encChar (a % 4 * 16 + b / 16), encChar (b % 16 * 4), '=']
  | a :: b :: c :: rest =>
    encChar (a / 4) :: encChar (a % 4 * 16 + b / 16) ::
      encChar (b % 16 * 4 + c / 64) :: encChar (c % 64) :: b64encode rest

/-- Decode 4-character groups; padding may occur only in the final group. -/
def b64decodeChunks : List Char → Option (List Nat)
  | [] => some []
  | c1 :: c2 :: c3 :: c4 :: rest =>
    match decChar c1, decChar c2 with
    | some a, some b =>
      if c3 = '=' then
        if c4 = '=' ∧ rest = [] then some [a * 4 + b / 16] else none
      else
        match decChar c3 with
        | some c =>
          if c4 = '=' then
            if rest = [] then some [a * 4 + b / 16, b % 16 * 16 + c / 4] else none
          else
            match decChar c4 with
            | some d =>
              match b64decodeChunks rest with
              | some tail =>
                some ((a * 4 + b / 16) :: (b % 16 * 16 + c / 4) :: (c % 4 * 64 + d) :: tail)
              | none => none
            | none => none
        | none => none
    | _, _ => none
  | _ => none

/-- `base64.StdEncoding.EncodeToString`. -/
def EncodeToString (data : List Nat) : String :=
  String.mk (b64encode data)

/-- `base64.StdEncoding.DecodeString`: `none` models a non-nil decode
error.  Go's decoder skips `\r` and `\n` before grouping. -/
def DecodeString (s : String) : Option (List Nat) :=
  b64decodeChunks (s.data.filter (fun c => ¬(c = '\r' ∨ c = '\n')))

/-! ## Metadata codec (`mapToMeta` / `metaToMap` from `wire.go`) -/

/-- Go map assignment `m[k] = v` on the association-list model: any
existing binding of `k` is replaced, last write wins. -/
def mapInsert (m : List (String × String)) (k v : String) : List (String × String) :=
  m.filter (fun p => p.1 ≠ k) ++ [(k, v)]

/-- `mapToMeta` from `wire.go`: a map becomes `[[key, value], ...]` in
iteration order (the list order of the model). -/
def mapToMeta (m : List (String × String)) : List (List String) :=
  m.map (fun p => [p.1, p.2])

/-- `metaToMap` from `wire.go`: insert pairs in list order, skipping
entries that are not two-element, overwriting on duplicate keys. -/
def metaToMap (meta : List (List String)) : List (String × String) :=
  meta.foldl (fun m pair =>
    match pair with
    | [k, v] => mapInsert m k v
    | _ => m) []

/-! ## Wire format structs from `wire.go`

Wire `Meta` fields are `[][]string` in Go with no `omitempty`; a nil
slice marshals to `null`.  The conversion functions only ever produce nil
or non-empty `Meta` (the encoders guard on `len > 0` and `mapToMeta` is
only called then), so the model uses a plain list with `[]` standing for
nil. -/

/-- `WasmMessage` from `wire.go`. -/
structure WasmMessage where
  Kind : String
  Data : String
  Meta : List (List String)
  deriving DecidableEq

/-- `WasmResponse` from `wire.go`. -/
structure WasmResponse where
  Data : String
  Meta : List (List String)
  deriving DecidableEq

/-- `WasmError` from `wire.go`. -/
structure WasmError where
  Code : String
  Message : String
  Meta : List (List String)
  deriving DecidableEq

/-- `WasmResult` from `wire.go`.  `Response` and `Error` are pointers with
`omitempty`. -/
structure WasmResult where
  Action : String
  Response : Option WasmResponse
  Error : Option WasmError
  deriving DecidableEq

/-- `WasmBlockInfo` from `wire.go`. -/
structure WasmBlockInfo where
  Name : String
  Version : String
  Interface : String
  Summary : String
  InstanceMode : String
  AllowedModes : List String
  deriving DecidableEq

/-- `WasmLifecycleEvent` from `wire.go`. -/
structure WasmLifecycleEvent where
  «Type» : String
  Data : String
  deriving DecidableEq

/-! ## Conversions between domain types and wire format (`wire.go`) -/

/-- `messageToWasm` from `wire.go`. -/
def messageToWasm (m : Message) : WasmMessage :=
  { Kind := m.Kind,
    Data := if m.Data.length > 0 then EncodeToString m.Data else "",
    Meta := if m.Meta.length > 0 then mapToMeta m.Meta else [] }

/-- `wasmToMessage` from `wire.go`: a base64 decode error leaves `Data`
nil. -/
def wasmToMessage (wm : WasmMessage) : Message :=
  { Kind := wm.Kind,
    Data := if wm.Data ≠ "" then (DecodeString wm.Data).getD [] else [],
    Meta := if wm.Meta.length > 0 then metaToMap wm.Meta else [] }

/-- `responseToWasm` from `wire.go`. -/
def responseToWasm (r : Response) : WasmResponse :=
  { Data := if r.Data.length > 0 then EncodeToString r.Data else "",
    Meta := if r.Meta.length > 0 then mapToMeta r.Meta else [] }

/-- `wasmToResponse` from `wire.go`. -/
def wasmToResponse (wr : WasmResponse) : Response :=
  { Data := if wr.Data ≠ "" then (DecodeString wr.Data).getD [] else [],
    Meta := if wr.Meta.length > 0 then metaToMap wr.Meta else [] }

/-- `errorToWasm` from `wire.go`. -/
def errorToWasm (e : WaferError) : WasmError :=
  { Code := e.Code,
    Message := e.Message,
    Meta := if e.Meta.length > 0 then mapToMeta e.Meta else [] }

/-- `wasmToError` from `wire.go`. -/
def wasmToError (we : WasmError) : WaferError :=
  { Code := we.Code,
    Message := we.Message,
    Meta := if we.Meta.length > 0 then metaToMap we.Meta else [] }

/-- `resultToWasm` from `wire.go`: the action string is `r.Action.String`;
`Response`/`Err` are carried over whenever non-nil, regardless of the
action. -/
def resultToWasm (r : Result) : WasmResult :=
  { Action := r.Action.String,
    Response := match r.Response with
      | some resp => some (responseToWasm resp)
      | none => none,
    Error := match r.Err with
      | some e => some (errorToWasm e)
      | none => none }

/-- `wasmToResult` from `wire.go`. -/
def wasmToResult (wr : WasmResult) : Result :=
  { Action := ParseAction wr.Action,
    Response := match wr.Response with
      | some resp => some (wasmToResponse resp)
      | none => none,
    Err := match wr.Error with
      | some e => some (wasmToError e)
      | none => none }

/-- `blockInfoToWasm` from `wire.go`. -/
def blockInfoToWasm (info : BlockInfo) : WasmBlockInfo :=
  { Name := info.Name,
    Version := info.Version,
    Interface := info.Interface,
    Summary := info.Summary,
    InstanceMode := info.InstanceMode.String,
    AllowedModes := if info.AllowedModes.length > 0
      then info.AllowedModes.map (fun m => m.String) else [] }

/-- Modelled from the spec: the guest SDK contains only the encoder
`blockInfoToWasm`; the decode direction lives on the host side and is not
under `src/`.  Per the spec (wire schema §6 and codec rules §4.2) each
string field carries over, `instance_mode` parses via the forward-
compatible `ParseInstanceMode`, and `allowed_modes` parses elementwise,
an absent list meaning "no entries". -/
def wasmToBlockInfo (wi : WasmBlockInfo) : BlockInfo :=
  { Name := wi.Name,
    Version := wi.Version,
    Interface := wi.Interface,
    Summary := wi.Summary,
    InstanceMode := ParseInstanceMode wi.InstanceMode,
    AllowedModes := wi.AllowedModes.map ParseInstanceMode }

/-- `wasmToLifecycleEvent` from `wire.go`. -/
def wasmToLifecycleEvent (we : WasmLifecycleEvent) : LifecycleEvent :=
  { «Type» := ParseLifecycleType we.Type,
    Data := if we.Data ≠ "" then (DecodeString we.Data).getD [] else [] }

/-- Modelled from the spec: the guest SDK contains only the decoder
`wasmToLifecycleEvent`; the encode direction lives on the host side and
is not under `src/`.  Per the spec (§3, §4.2, §6) the type encodes as its
canonical string and the payload as standard base64, empty bytes encoding
to the empty string. -/
def lifecycleEventToWasm (e : LifecycleEvent) : WasmLifecycleEvent :=
  { «Type» := e.Type.String,
    Data := if e.Data.length > 0 then EncodeToString e.Data else "" }

/-! ## JSON marshalling of the wire structs (`encoding/json` model)

Deterministic embedding of `json.Marshal` on the concrete wire structs:
fields in declaration order, Go's default string escaping (HTML-escaping
on), `omitempty` honoured, nil slices rendered as `null`. -/

/-- Lowercase hex digit. -/
def hexDigit (n : Nat) : Char :=
  "0123456789abcdef".toList.getD n '0'

/-- Go `encoding/json` escaping of one character: quote, backslash and
control characters are escaped, `<`, `>`, `&` are HTML-escaped, and
U+2028/U+2029 are escaped; everything else is emitted verbatim. -/
def escapeChar (c : Char) : List Char :=
  if c = '"' then ['\\', '"']
  else if c = '\\' then ['\\', '\\']
  else if c = '\n' then ['\\', 'n']
  else if c = '\r' then ['\\', 'r']
  else if c = '\t' then ['\\', 't']
  else if c = '<' ∨ c = '>' ∨ c = '&' then
    ['\\', 'u', '0', '0', hexDigit (c.toNat / 16), hexDigit (c.toNat % 16)]
  else if c.toNat < 32 then
    ['\\', 'u', '0', '0', hexDigit (c.toNat / 16), hexDigit (c.toNat % 16)]
  else if c.toNat = 0x2028 ∨ c.toNat = 0x2029 then
    ['\\', 'u', '2', '0', '2', hexDigit (c.toNat % 16)]
  else [c]

/-- A JSON string literal. -/
def jsonString (s : String) : List Char :=
  '"' :: (s.data.flatMap escapeChar ++ ['"'])

/-- One `"key":value` member. -/
def jsonField (k : String) (v : List Char) : List Char :=
  jsonString k ++ (':' :: v)

/-- A JSON object from rendered members. -/
def jsonObj (fields : List (List Char)) : List Char :=
  '{' :: (List.intercalate [','] fields ++ ['}'])

/-- A JSON array from rendered elements. -/
def jsonArr (elems : List (List Char)) : List Char :=
  '[' :: (List.intercalate [','] elems ++ [']'])

/-- A wire `Meta` (`[][]string`, no `omitempty`): nil renders as `null`,
otherwise as an array of two-element string arrays. -/
def jsonMeta (meta : List (List String)) : List Char :=
  if meta = [] then "null".data
  else jsonArr (meta.map (fun pair => jsonArr (pair.map jsonString)))

/-- A `[]string` with no `omitempty` (`allowed_modes`): nil renders as
`null`. -/
def jsonStringArray (xs : List String) : List Char :=
  if xs = [] then "null".data
  else jsonArr (xs.map jsonString)

/-- `json.Marshal` of a `WasmMessage`. -/
def marshalWasmMessage (wm : WasmMessage) : List Char :=
  jsonObj [jsonField "kind" (jsonString wm.Kind),
    jsonField "data" (jsonString wm.Data),
    jsonField "meta" (jsonMeta wm.Meta)]

/-- `json.Marshal` of a `WasmResponse`. -/
def marshalWasmResponse (wr : WasmResponse) : List Char :=
  jsonObj [jsonField "data" (jsonString wr.Data),
    jsonField "meta" (jsonMeta wr.Meta)]

/-- `json.Marshal` of a `WasmError`. -/
def marshalWasmError (we : WasmError) : List Char :=
  jsonObj [jsonField "code" (jsonString we.Code),
    jsonField "message" (jsonString we.Message),
    jsonField "meta" (jsonMeta we.Meta)]

/-- `json.Marshal` of a `WasmResult`: `response` and `error` are
`omitempty` pointers, dropped when nil. -/
def marshalWasmResult (r : WasmResult) : List Char :=
  jsonObj ([jsonField "action" (jsonString r.Action)] ++
    (match r.Response with
      | some resp => [jsonField "response" (marshalWasmResponse resp)]
      | none => []) ++
    (match r.Error with
      | some e => [jsonField "error" (marshalWasmError e)]
      | none => []))

/-- `json.Marshal` of a `WasmBlockInfo`. -/
def marshalWasmBlockInfo (wi : WasmBlockInfo) : List Char :=
  jsonObj [jsonField "name" (jsonString wi.Name),
    jsonField "version" (jsonString wi.Version),
    jsonField "interface" (jsonString wi.Interface),
    jsonField "summary" (jsonString wi.Summary),
    jsonField "instance_mode" (jsonString wi.InstanceMode),
    jsonField "allowed_modes" (jsonStringArray wi.AllowedModes)]

/-- `lifecycleResponse` from `guest.go`: the minimal envelope returned by
the `lifecycle` export. -/
structure lifecycleResponse where
  OK : Bool
  Error : String
  deriving DecidableEq

/-- `json.Marshal` of a `lifecycleResponse`: `ok` always, `error` with
`omitempty` (dropped when empty). -/
def marshalLifecycleResponse (lr : lifecycleResponse) : List Char :=
  jsonObj ([jsonField "ok" (if lr.OK then "true".data else "false".data)] ++
    (if lr.Error = "" then [] else [jsonField "error" (jsonString lr.Error)]))

/-! ## Pointer/length packing and the exported entry points (`guest.go`)

A block implementation supplies `Info`, `Handle` and `Lifecycle`
(`Lifecycle` returning `some msg` models a non-nil `error` whose
`Error()` is `msg`).  The global registration state is the
`Option BlockImpl` argument, the pinned-buffer registry the
`List (List Char)` argument, and addresses come from an environment
function `addrOf` standing for `&data[0]`. -/

/-- The `Block` interface from `guest.go`, as data. -/
structure BlockImpl where
  Info : BlockInfo
  Handle : Message → Result
  Lifecycle : LifecycleEvent → Option String

/-- `packPtrLen` from `guest.go`: empty data packs to 0 and is not
pinned; otherwise the buffer is pinned and the packed `uint64` is
`ptr << 32 | len` (the shift wrapping at 64 bits as in Go). -/
def packPtrLen (addr : Nat) (pinnedData : List (List Char)) (data : List Char) :
    Nat × List (List Char) :=
  if data.length = 0 then (0, pinnedData)
  else ((addr <<< 32) % 2 ^ 64 ||| data.length, pinnedData ++ [data])

/-- High half of a packed value, as read by `Context.Send`
(`uint32(packed >> 32)`). -/
def unpackPtr (packed : Nat) : Nat :=
  packed >>> 32 % 2 ^ 32

/-- Low half of a packed value, as read by `Context.Send`
(`uint32(packed & 0xFFFFFFFF)`). -/
def unpackLen (packed : Nat) : Nat :=
  packed &&& 4294967295

/-- The result buffer computed by the `handle` export of `guest.go`
before packing: the no-block error envelope, the decode-failure error
envelope, or the marshalled result of the registered block's handler.
(`json.Marshal` of a `WasmResult` cannot fail, so the marshal-failure
branch of the source is unreachable in the model.) -/
def handleData (unmarshalMessage : List Char → Except String WasmMessage)
    (registeredBlock : Option BlockImpl) (input : List Char) : List Char :=
  match registeredBlock with
  | none =>
    marshalWasmResult
      { Action := "error", Response := none,
        Error := some { Code := "internal", Message := "no block registered", Meta := [] } }
  | some block =>
    match unmarshalMessage input with
    | Except.error e =>
      marshalWasmResult
        { Action := "error", Response := none,
          Error := some
            { Code := "internal", Message := "failed to unmarshal message: " ++ e, Meta := [] } }
    | Except.ok wmsg =>
      marshalWasmResult (resultToWasm (block.Handle (wasmToMessage wmsg)))

/-- The `handle` export of `guest.go`: clears the pinned set at entry
(the previous `pinnedData` argument is discarded), computes the result
buffer and returns it packed, pinning it. -/
def handle (unmarshalMessage : List Char → Except String WasmMessage)
    (addrOf : List Char → Nat) (registeredBlock : Option BlockImpl)
    (pinnedData : List (List Char)) (input : List Char) : Nat × List (List Char) :=
  let data := handleData unmarshalMessage registeredBlock input
  packPtrLen (addrOf data) [] data

/-- The minimal envelope computed by the `lifecycle` export of `guest.go`
before packing (`packOkResponse` / `packErrorResponse`). -/
def lifecycleData (unmarshalEvent : List Char → Except String WasmLifecycleEvent)
    (registeredBlock : Option BlockImpl) (input : List Char) : List Char :=
  match registeredBlock with
  | none => marshalLifecycleResponse { OK := false, Error := "no block registered" }
  | some block =>
    match unmarshalEvent input with
    | Except.error e =>
      marshalLifecycleResponse
        { OK := false, Error := "failed to unmarshal lifecycle event: " ++ e }
    | Except.ok wevent =>
      match block.Lifecycle (wasmToLifecycleEvent wevent) with
      | some msg => marshalLifecycleResponse { OK := false, Error := msg }
      | none => marshalLifecycleResponse { OK := true, Error := "" }

/-- The `lifecycle` export of `guest.go`: clears the pinned set at entry
and returns the packed minimal envelope. -/
def lifecycle (unmarshalEvent : List Char → Except String WasmLifecycleEvent)
    (addrOf : List Char → Nat) (registeredBlock : Option BlockImpl)
    (pinnedData : List (List Char)) (input : List Char) : Nat × List (List Char) :=
  let data := lifecycleData unmarshalEvent registeredBlock input
  packPtrLen (addrOf data) [] data

/-- The `malloc` export of `guest.go`: `buf := make([]byte, size)` then
`return uint32(uintptr(unsafe.Pointer(&buf[0])))`.  `addr` models the
address of the fresh allocation; `none` models the runtime panic of
`&buf[0]` on a zero-length slice.  The source does not touch `pinnedData`
here: it passes through unchanged. -/
def malloc (addr : Nat) (pinnedData : List (List Char)) (size : Nat) :
    Option Nat × List (List Char) :=
  (if size = 0 then none else some addr, pinnedData)

/-- `Context.Send` from the host-import client: marshal the message
(`json.Marshal` of a `WasmMessage` cannot fail, so the marshal-failure
branch of the source is unreachable in the model), call the host import,
and decode the packed reply.  `hostSend` returns the packed `uint64`
together with the bytes the host wrote at the packed location. -/
def Send (unmarshalResult : List Char → Except String WasmResult)
    (hostSend : List Char → Nat × List Char) (msg : Message) : Result :=
  let wmsg := messageToWasm msg
  let data := marshalWasmMessage wmsg
  let packed := (hostSend data).1
  let resultLen := packed &&& 4294967295
  if resultLen = 0 then { Action := Action.Continue, Response := none, Err := none }
  else
    match unmarshalResult (hostSend data).2 with
    | Except.error e =>
      { Action := Action.ActionError, Response := none,
        Err := some
          { Code := "internal", Message := "failed to unmarshal result: " ++ e, Meta := [] } }
    | Except.ok wresult => wasmToResult wresult

/-! ## Specification predicates (from the spec, for refinement claims) -/

/-- Spec §3 well-formedness of a domain `Result`, as quoted by the claim:
`action ∈ {Continue, Drop}` forces both payloads absent, `Respond` forces
a response, `Error` forces an error. -/
def ResultWellFormed (r : Result) : Prop :=
  ((r.Action = Action.Continue ∨ r.Action = Action.Drop) → r.Response = none ∧ r.Err = none) ∧
  (r.Action = Action.Respond → r.Response ≠ none) ∧
  (r.Action = Action.ActionError → r.Err ≠ none)

/-- Spec §3 well-formedness on the wire side: `"respond"` carries a
response, `"error"` carries an error, and any other action string (which
decodes to the neutral `Continue`/`Drop` family) carries neither. -/
def WasmResultWellFormed (wr : WasmResult) : Prop :=
  (wr.Action = "respond" → wr.Response ≠ none) ∧
  (wr.Action = "error" → wr.Error ≠ none) ∧
  (wr.Action ≠ "respond" → wr.Action ≠ "error" → wr.Response = none ∧ wr.Error = none)

/-- Keys of an association list are pairwise distinct: the spec's "meta
keys are unique within one entity". -/
def ValidMeta (m : List (String × String)) : Prop :=
  (m.map Prod.fst).Nodup

/-- Payload bytes are bytes. -/
def ValidBytes (d : List Nat) : Prop :=
  ∀ b ∈ d, b < 256

instance (m : List (String × String)) : Decidable (ValidMeta m) := by
  unfold ValidMeta
  infer_instance

instance (d : List Nat) : Decidable (ValidBytes d) := by
  unfold ValidBytes
  infer_instance

instance (r : Result) : Decidable (ResultWellFormed r) := by
  unfold ResultWellFormed
  infer_instance

instance (wr : WasmResult) : Decidable (WasmResultWellFormed wr) := by
  unfold WasmResultWellFormed
  infer_instance

end Wafer

/-- C6: for every string `s` outside the canonical variant names,
`ParseAction s = Continue`, `ParseInstanceMode s = PerNode` and
`ParseLifecycleType s = Init`; decoding never fails on an unrecognized
enumeration string. -/
theorem Wafer.parse_enum_unknown_defaults (s : String) :
    (s ≠ "continue" → s ≠ "respond" → s ≠ "drop" → s ≠ "error" →
      Wafer.ParseAction s = Wafer.Action.Continue) ∧
    (s ≠ "per-node" → s ≠ "singleton" → s ≠ "per-chain" → s ≠ "per-execution" →
      Wafer.ParseInstanceMode s = Wafer.InstanceMode.PerNode) ∧
    (s ≠ "init" → s ≠ "start" → s ≠ "stop" →
      Wafer.ParseLifecycleType s = Wafer.LifecycleType.Init) := by
  refine ⟨?_, ?_, ?_⟩ <;> intros <;>
    simp [Wafer.ParseAction, Wafer.ParseInstanceMode, Wafer.ParseLifecycleType, *]

/-- C6 witness: the unknown string "bogus" decodes to the neutral variant
of each enumeration. -/
theorem Wafer.parse_enum_unknown_defaults_witness :
    Wafer.ParseAction "bogus" = Wafer.Action.Continue ∧
    Wafer.ParseInstanceMode "bogus" = Wafer.InstanceMode.PerNode ∧
    Wafer.ParseLifecycleType "bogus" = Wafer.LifecycleType.Init := by
  have h := Wafer.parse_enum_unknown_defaults "bogus"
  exact ⟨h.1 (by decide) (by decide) (by decide) (by decide),
    h.2.1 (by decide) (by decide) (by decide) (by decide),
    h.2.2 (by decide) (by decide) (by decide)⟩

namespace Wafer

theorem decChar_encChar : ∀ n, n < 64 → decChar (encChar n) = some n := by decide

theorem encChar_ne_pad : ∀ n, n < 64 → encChar n ≠ '=' := by decide

theorem encChar_not_crlf (n : Nat) : ¬(encChar n = '\r' ∨ encChar n = '\n') := by
  by_cases h : n < 64
  · revert n
    decide
  · unfold encChar
    rw [List.getD_eq_default]
    · decide
    · have : b64alphabet.length = 64 := by decide
      omega

theorem b64encode_filter_crlf (l : List Nat) :
    (b64encode l).filter (fun c => ¬(c = '\r' ∨ c = '\n')) = b64encode l := by
  rw [List.filter_eq_self]
  intro a ha
  induction l using b64encode.induct with
  | case1 => simp [b64encode] at ha
  | case2 x =>
    simp only [b64encode, List.mem_cons, List.not_mem_nil, or_false] at ha
    rcases ha with h | h | h | h <;> subst h <;>
      simp [encChar_not_crlf]
  | case3 x y =>
    simp only [b64encode, List.mem_cons, List.not_mem_nil, or_false] at ha
    rcases ha with h | h | h | h <;> subst h <;>
      simp [encChar_not_crlf]
  | case4 x y z rest ih =>
    simp only [b64encode, List.mem_cons] at ha
    rcases ha with h | h | h | h | h
    · subst h; simp [encChar_not_crlf]
    · subst h; simp [encChar_not_crlf]
    · subst h; simp [encChar_not_crlf]
    · subst h; simp [encChar_not_crlf]
    · exact ih h

end Wafer

namespace Wafer

theorem b64decode_b64encode : ∀ l : List Nat, (∀ b ∈ l, b < 256) →
    b64decodeChunks (b64encode l) = some l := by
  intro l hl
  induction l using b64encode.induct with
  | case1 => rfl
  | case2 a =>
    have ha : a < 256 := hl a (by simp)
    have h1 : decChar (encChar (a / 4)) = some (a / 4) := decChar_encChar _ (by omega)
    have h2 : decChar (encChar (a % 4 * 16)) = some (a % 4 * 16) := decChar_encChar _ (by omega)
    simp only [b64encode, b64decodeChunks, h1, h2, if_pos rfl, and_self, if_true,
      Option.some.injEq, List.cons.injEq, and_true]
    omega
  | case3 a b =>
    have ha : a < 256 := hl a (by simp)
    have hb : b < 256 := hl b (by simp)
    have h1 : decChar (encChar (a / 4)) = some (a / 4) := decChar_encChar _ (by omega)
    have h2 : decChar (encChar (a % 4 * 16 + b / 16)) = some (a % 4 * 16 + b / 16) :=
      decChar_encChar _ (by omega)
    have h3 : decChar (encChar (b % 16 * 4)) = some (b % 16 * 4) := decChar_encChar _ (by omega)
    have hn3 : ¬(encChar (b % 16 * 4) = '=') := encChar_ne_pad _ (by omega)
    simp only [b64encode, b64decodeChunks, h1, h2, h3, hn3, if_false, ite_false, if_pos rfl,
      ite_true, Option.some.injEq, List.cons.injEq, and_true]
    constructor
    · omega
    · omega
  | case4 a b c rest ih =>
    have ha : a < 256 := hl a (by simp)
    have hb : b < 256 := hl b (by simp)
    have hc : c < 256 := hl c (by simp)
    have hrest : ∀ x ∈ rest, x < 256 := fun x hx => hl x (by simp [hx])
    have h1 : decChar (encChar (a / 4)) = some (a / 4) := decChar_encChar _ (by omega)
    have h2 : decChar (encChar (a % 4 * 16 + b / 16)) = some (a % 4 * 16 + b / 16) :=
      decChar_encChar _ (by omega)
    have h3 : decChar (encChar (b % 16 * 4 + c / 64)) = some (b % 16 * 4 + c / 64) :=
      decChar_encChar _ (by omega)
    have h4 : decChar (encChar (c % 64)) = some (c % 64) := decChar_encChar _ (by omega)
    have hn3 : ¬(encChar (b % 16 * 4 + c / 64) = '=') := encChar_ne_pad _ (by omega)
    have hn4 : ¬(encChar (c % 64) = '=') := encChar_ne_pad _ (by omega)
    simp only [b64encode, b64decodeChunks, h1, h2, h3, h4, hn3, hn4, if_false, ite_false,
      ih hrest, Option.some.injEq, List.cons.injEq]
    refine ⟨by omega, by omega, by omega, trivial⟩

end Wafer

namespace Wafer

theorem b64encode_ne_nil (l : List Nat) (h : l ≠ []) : b64encode l ≠ [] := by
  unfold b64encode
  split <;> simp_all

theorem DecodeString_EncodeToString (l : List Nat) (h : ∀ b ∈ l, b < 256) :
    DecodeString (EncodeToString l) = some l := by
  unfold DecodeString EncodeToString
  show b64decodeChunks ((b64encode l).filter _) = some l
  rw [b64encode_filter_crlf, b64decode_b64encode l h]

theorem EncodeToString_ne_empty (l : List Nat) (h : l ≠ []) : EncodeToString l ≠ "" := by
  unfold EncodeToString
  intro hc
  exact b64encode_ne_nil l h (congrArg String.data hc)

theorem mapInsert_fresh (acc : List (String × String)) (k v : String)
    (h : ∀ p ∈ acc, p.1 ≠ k) : mapInsert acc k v = acc ++ [(k, v)] := by
  unfold mapInsert
  congr 1
  rw [List.filter_eq_self]
  intro p hp
  simpa using h p hp

theorem metaToMap_mapToMeta_aux (m : List (String × String)) :
    ∀ acc : List (String × String), (m.map Prod.fst).Nodup →
      (∀ k ∈ m.map Prod.fst, ∀ p ∈ acc, p.1 ≠ k) →
      List.foldl (fun m pair =>
        match pair with
        | [k, v] => mapInsert m k v
        | _ => m) acc (mapToMeta m) = acc ++ m := by
  induction m with
  | nil => intro acc _ _; simp [mapToMeta]
  | cons hd tl ih =>
    intro acc hnd hdisj
    simp only [mapToMeta, List.map_cons, List.foldl_cons]
    rw [mapInsert_fresh acc hd.1 hd.2 (hdisj hd.1 (by simp))]
    have hnd' : (tl.map Prod.fst).Nodup := by
      simpa using hnd.of_cons
    have hhd : hd.1 ∉ tl.map Prod.fst := by
      have := List.nodup_cons.mp (show (hd.1 :: tl.map Prod.fst).Nodup by simpa using hnd)
      exact this.1
    have hdisj' : ∀ k ∈ tl.map Prod.fst, ∀ p ∈ acc ++ [(hd.1, hd.2)], p.1 ≠ k := by
      intro k hk p hp
      rcases List.mem_append.mp hp with hp | hp
      · exact hdisj k (by simp [hk]) p hp
      · simp only [List.mem_singleton] at hp
        subst hp
        intro hc
        apply hhd
        rw [show hd.1 = k from hc]
        exact hk
    have := ih (acc ++ [(hd.1, hd.2)]) hnd' hdisj'
    unfold mapToMeta at this
    rw [this]
    simp

theorem metaToMap_mapToMeta (m : List (String × String)) (h : ValidMeta m) :
    metaToMap (mapToMeta m) = m := by
  have := metaToMap_mapToMeta_aux m [] h (by simp)
  simpa [metaToMap] using this

end Wafer

namespace Wafer

theorem ParseAction_String (a : Action) : ParseAction a.String = a := by
  cases a <;> simp [Action.String, ParseAction]

theorem ParseInstanceMode_String (m : InstanceMode) : ParseInstanceMode m.String = m := by
  cases m <;> simp [InstanceMode.String, ParseInstanceMode]

theorem ParseLifecycleType_String (t : LifecycleType) : ParseLifecycleType t.String = t := by
  cases t <;> simp [LifecycleType.String, ParseLifecycleType]

theorem ParseAction_eq_respond {s : String} (h : ParseAction s = Action.Respond) :
    s = "respond" := by
  unfold ParseAction at h
  split_ifs at h <;> simp_all

theorem ParseAction_eq_error {s : String} (h : ParseAction s = Action.ActionError) :
    s = "error" := by
  unfold ParseAction at h
  split_ifs at h <;> simp_all

theorem or_high_unpack (a b : Nat) (hb : b < 2 ^ 32) :
    (a <<< 32 ||| b) >>> 32 = a := by
  apply Nat.eq_of_testBit_eq
  intro i
  have hbb : b.testBit (32 + i) = false :=
    Nat.testBit_lt_two_pow (lt_of_lt_of_le hb (Nat.pow_le_pow_right (by omega) (by omega)))
  simp [Nat.testBit_shiftRight, Nat.testBit_lor, Nat.testBit_shiftLeft, hbb,
    Nat.add_sub_cancel_left]

theorem or_low_unpack (a b : Nat) (hb : b < 2 ^ 32) :
    (a <<< 32 ||| b) % 2 ^ 32 = b := by
  apply Nat.eq_of_testBit_eq
  intro i
  rw [Nat.testBit_mod_two_pow]
  rcases Nat.lt_or_ge i 32 with h | h
  · have h1 : (decide (i < 32)) = true := by simpa using h
    have h2 : (decide (i ≥ 32)) = false := by simpa using Nat.not_le.mpr h
    simp [Nat.testBit_lor, Nat.testBit_shiftLeft, h1, h2]
  · have h1 : (decide (i < 32)) = false := by simpa using Nat.not_lt.mpr h
    have hbb : b.testBit i = false :=
      Nat.testBit_lt_two_pow (lt_of_lt_of_le hb (Nat.pow_le_pow_right (by omega) h))
    simp [h1, hbb]

theorem or_ne_zero_right (x y : Nat) (hy : y ≠ 0) : x ||| y ≠ 0 := by
  intro hc
  obtain ⟨i, hi⟩ := Nat.ne_zero_implies_bit_true hy
  have : (x ||| y).testBit i = true := by
    rw [Nat.testBit_lor, hi, Bool.or_true]
  rw [hc] at this
  simp [Nat.zero_testBit] at this

theorem mask32_eq_mod (p : Nat) : p &&& 4294967295 = p % 2 ^ 32 := by
  have : (4294967295 : Nat) = 2 ^ 32 - 1 := by norm_num
  rw [this, Nat.and_pow_two_sub_one_eq_mod]

theorem marshal_result_ne_nil (r : WasmResult) : marshalWasmResult r ≠ [] := by
  simp [marshalWasmResult, jsonObj]

theorem marshal_lifecycle_ne_nil (lr : lifecycleResponse) :
    marshalLifecycleResponse lr ≠ [] := by
  simp [marshalLifecycleResponse, jsonObj]

end Wafer

namespace Wafer

theorem packPtrLen_spec (addr : Nat) (pinned : List (List Char)) (data : List Char)
    (ha : addr < 2 ^ 32) (hl : data.length < 2 ^ 32) :
    (data ≠ [] →
      unpackPtr (packPtrLen addr pinned data).1 = addr ∧
      unpackLen (packPtrLen addr pinned data).1 = data.length) ∧
    (data = [] → (packPtrLen addr pinned data).1 = 0) := by
  constructor
  · intro hne
    have hlen0 : data.length ≠ 0 := by
      simpa using hne
    have hsh : (addr <<< 32) % 2 ^ 64 = addr <<< 32 := by
      apply Nat.mod_eq_of_lt
      rw [Nat.shiftLeft_eq]
      have : addr * 2 ^ 32 < 2 ^ 32 * 2 ^ 32 := by
        exact Nat.mul_lt_mul_of_lt_of_le ha (le_refl _) (by norm_num)
      calc addr * 2 ^ 32 < 2 ^ 32 * 2 ^ 32 := this
        _ = 2 ^ 64 := by norm_num
    unfold packPtrLen unpackPtr unpackLen
    rw [if_neg hlen0]
    simp only [hsh]
    constructor
    · rw [or_high_unpack addr data.length hl, Nat.mod_eq_of_lt ha]
    · rw [mask32_eq_mod, or_low_unpack addr data.length hl]
  · intro he
    unfold packPtrLen
    rw [if_pos (by simp [he])]

end Wafer

namespace Wafer

theorem data_field_roundtrip (d : List Nat) (h : ValidBytes d) :
    (if (if d.length > 0 then EncodeToString d else "") ≠ "" then
      (DecodeString (if d.length > 0 then EncodeToString d else "")).getD [] else []) = d := by
  by_cases hd : d = []
  · subst hd
    simp
  · have hlen : d.length > 0 := List.length_pos.mpr hd
    rw [if_pos hlen, if_pos (EncodeToString_ne_empty d hd), DecodeString_EncodeToString d h]
    rfl

theorem meta_field_roundtrip (m : List (String × String)) (h : ValidMeta m) :
    (if (if m.length > 0 then mapToMeta m else []).length > 0 then
      metaToMap (if m.length > 0 then mapToMeta m else []) else []) = m := by
  by_cases hm : m = []
  · subst hm
    simp
  · have hlen : m.length > 0 := List.length_pos.mpr hm
    rw [if_pos hlen]
    have hlen2 : (mapToMeta m).length > 0 := by
      simpa [mapToMeta] using hlen
    rw [if_pos hlen2, metaToMap_mapToMeta m h]

end Wafer

namespace Wafer

theorem message_roundtrip (m : Message) (hd : ValidBytes m.Data) (hm : ValidMeta m.Meta) :
    wasmToMessage (messageToWasm m) = m := by
  cases m with
  | mk kind dat meta =>
    simp only [messageToWasm, wasmToMessage]
    congr 1
    · exact data_field_roundtrip dat hd
    · exact meta_field_roundtrip meta hm

theorem response_roundtrip (r : Response) (hd : ValidBytes r.Data) (hm : ValidMeta r.Meta) :
    wasmToResponse (responseToWasm r) = r := by
  cases r with
  | mk dat meta =>
    simp only [responseToWasm, wasmToResponse]
    congr 1
    · exact data_field_roundtrip dat hd
    · exact meta_field_roundtrip meta hm

theorem error_roundtrip (e : WaferError) (hm : ValidMeta e.Meta) :
    wasmToError (errorToWasm e) = e := by
  cases e with
  | mk code msg meta =>
    simp only [errorToWasm, wasmToError]
    congr 1
    exact meta_field_roundtrip meta hm

theorem result_roundtrip (r : Result)
    (hresp : ∀ resp, r.Response = some resp → ValidBytes resp.Data ∧ ValidMeta resp.Meta)
    (herr : ∀ e, r.Err = some e → ValidMeta e.Meta) :
    wasmToResult (resultToWasm r) = r := by
  cases r with
  | mk a resp err =>
    simp only [resultToWasm, wasmToResult]
    congr 1
    · exact ParseAction_String a
    · cases resp with
      | none => rfl
      | some rr =>
        have := hresp rr rfl
        simp only
        rw [response_roundtrip rr this.1 this.2]
    · cases err with
      | none => rfl
      | some e =>
        have := herr e rfl
        simp only
        rw [error_roundtrip e this]

theorem blockinfo_roundtrip (info : BlockInfo) :
    wasmToBlockInfo (blockInfoToWasm info) = info := by
  cases info with
  | mk n v i s im am =>
    simp only [blockInfoToWasm, wasmToBlockInfo]
    congr 1
    · exact ParseInstanceMode_String im
    · by_cases ham : am = []
      · subst ham
        simp
      · rw [if_pos (List.length_pos.mpr ham), List.map_map]
        have : ∀ x ∈ am, (ParseInstanceMode ∘ fun m => m.String) x = id x := by
          intro x _
          simp [ParseInstanceMode_String x]
        rw [List.map_congr_left this, List.map_id]

theorem lifecycle_event_roundtrip (e : LifecycleEvent) (hd : ValidBytes e.Data) :
    wasmToLifecycleEvent (lifecycleEventToWasm e) = e := by
  cases e with
  | mk t dat =>
    simp only [lifecycleEventToWasm, wasmToLifecycleEvent]
    congr 1
    · exact ParseLifecycleType_String t
    · exact data_field_roundtrip dat hd

end Wafer

namespace Wafer

/-- C5: decoding the wire encoding of a valid Message, Result, Response,
Error, BlockDescriptor or LifecycleEvent yields the value back, with nil
and empty data/meta identified (the model's `[]`).  Validity is the
spec's own invariant: meta keys unique, payload bytes in range.  The
host-side directions `wasmToBlockInfo` and `lifecycleEventToWasm` are
modelled from the spec, as they are not part of the guest SDK. -/
theorem wire_codec_roundtrip :
    (∀ m : Message, ValidBytes m.Data → ValidMeta m.Meta →
      wasmToMessage (messageToWasm m) = m) ∧
    (∀ r : Result,
      (∀ resp, r.Response = some resp → ValidBytes resp.Data ∧ ValidMeta resp.Meta) →
      (∀ e, r.Err = some e → ValidMeta e.Meta) →
      wasmToResult (resultToWasm r) = r) ∧
    (∀ resp : Response, ValidBytes resp.Data → ValidMeta resp.Meta →
      wasmToResponse (responseToWasm resp) = resp) ∧
    (∀ e : WaferError, ValidMeta e.Meta → wasmToError (errorToWasm e) = e) ∧
    (∀ info : BlockInfo, wasmToBlockInfo (blockInfoToWasm info) = info) ∧
    (∀ ev : LifecycleEvent, ValidBytes ev.Data →
      wasmToLifecycleEvent (lifecycleEventToWasm ev) = ev) :=
  ⟨message_roundtrip, result_roundtrip, response_roundtrip, error_roundtrip,
    blockinfo_roundtrip, lifecycle_event_roundtrip⟩

/-- C5 witness: concrete round trips for all six entity kinds. -/
theorem wire_codec_roundtrip_witness :
    wasmToMessage (messageToWasm
        { Kind := "ping", Data := [1, 2, 255], Meta := [("a", "1"), ("b", "2")] }) =
      { Kind := "ping", Data := [1, 2, 255], Meta := [("a", "1"), ("b", "2")] } ∧
    wasmToResult (resultToWasm
        { Action := Action.Respond,
          Response := some { Data := [104, 105], Meta := [("content-type", "text/plain")] },
          Err := none }) =
      { Action := Action.Respond,
        Response := some { Data := [104, 105], Meta := [("content-type", "text/plain")] },
        Err := none } ∧
    wasmToResponse (responseToWasm { Data := [0], Meta := [] }) = { Data := [0], Meta := [] } ∧
    wasmToError (errorToWasm
        { Code := "not_found", Message := "missing", Meta := [("resp.status", "404")] }) =
      { Code := "not_found", Message := "missing", Meta := [("resp.status", "404")] } ∧
    wasmToBlockInfo (blockInfoToWasm
        { Name := "@example/blk", Version := "1.0.0", Interface := "processor@v1",
          Summary := "s", InstanceMode := InstanceMode.Singleton,
          AllowedModes := [InstanceMode.Singleton, InstanceMode.PerChain] }) =
      { Name := "@example/blk", Version := "1.0.0", Interface := "processor@v1",
        Summary := "s", InstanceMode := InstanceMode.Singleton,
        AllowedModes := [InstanceMode.Singleton, InstanceMode.PerChain] } ∧
    wasmToLifecycleEvent (lifecycleEventToWasm
        { «Type» := LifecycleType.Init, Data := [123, 125] }) =
      { «Type» := LifecycleType.Init, Data := [123, 125] } := by
  refine ⟨wire_codec_roundtrip.1 _ (by decide) (by decide),
    wire_codec_roundtrip.2.1 _ ?_ ?_,
    wire_codec_roundtrip.2.2.1 _ (by decide) (by decide),
    wire_codec_roundtrip.2.2.2.1 _ (by decide),
    wire_codec_roundtrip.2.2.2.2.1 _,
    wire_codec_roundtrip.2.2.2.2.2 _ (by decide)⟩
  · intro resp hresp
    simp only [Option.some.injEq] at hresp
    subst hresp
    exact ⟨by decide, by decide⟩
  · intro e he
    simp at he

end Wafer

namespace Wafer

/-- C2 counterexample: the ill-formed triple (`Continue`, non-nil
response, nil error) is passed through `resultToWasm` unchanged — neither
rejected nor normalized — and decodes back to the same ill-formed domain
triple; both sides violate the spec's well-formedness invariant. -/
theorem resultToWasm_passes_inconsistent_triple :
    resultToWasm
        { Action := Action.Continue, Response := some { Data := [], Meta := [] }, Err := none } =
      { Action := "continue", Response := some { Data := "", Meta := [] }, Error := none } ∧
    ¬ ResultWellFormed
        { Action := Action.Continue, Response := some { Data := [], Meta := [] }, Err := none } ∧
    ¬ WasmResultWellFormed
        { Action := "continue", Response := some { Data := "", Meta := [] }, Error := none } ∧
    wasmToResult
        { Action := "continue", Response := some { Data := "", Meta := [] }, Error := none } =
      { Action := Action.Continue, Response := some { Data := [], Meta := [] }, Err := none } := by
  refine ⟨?_, by decide, by decide, ?_⟩ <;> rfl

/-- C2 (amended): `resultToWasm` and `wasmToResult` preserve the
presence/absence of `response` and `error` exactly, so they map
well-formed results to well-formed wire results and conversely; they do
not reject or normalize ill-formed triples, which pass through unchanged. -/
theorem result_codec_preserves_wellformedness (r : Result) (wr : WasmResult) :
    ((resultToWasm r).Response = none ↔ r.Response = none) ∧
    ((resultToWasm r).Error = none ↔ r.Err = none) ∧
    ((wasmToResult wr).Response = none ↔ wr.Response = none) ∧
    ((wasmToResult wr).Err = none ↔ wr.Error = none) ∧
    (ResultWellFormed r → WasmResultWellFormed (resultToWasm r)) ∧
    (WasmResultWellFormed wr → ResultWellFormed (wasmToResult wr)) := by
  refine ⟨?_, ?_, ?_, ?_, ?_, ?_⟩
  · cases hr : r.Response <;> simp [resultToWasm, hr]
  · cases he : r.Err <;> simp [resultToWasm, he]
  · cases hr : wr.Response <;> simp [wasmToResult, hr]
  · cases he : wr.Error <;> simp [wasmToResult, he]
  · intro h
    obtain ⟨h1, h2, h3⟩ := h
    cases ha : r.Action
    · obtain ⟨hr, he⟩ := h1 (by simp [ha])
      refine ⟨?_, ?_, ?_⟩ <;> simp [resultToWasm, ha, Action.String, hr, he]
    · have hr := h2 ha
      refine ⟨?_, ?_, ?_⟩ <;> simp [resultToWasm, ha, Action.String]
      cases hrr : r.Response
      · exact absurd hrr hr
      · simp [hrr]
    · obtain ⟨hr, he⟩ := h1 (by simp [ha])
      refine ⟨?_, ?_, ?_⟩ <;> simp [resultToWasm, ha, Action.String, hr, he]
    · have he := h3 ha
      refine ⟨?_, ?_, ?_⟩ <;> simp [resultToWasm, ha, Action.String]
      cases hee : r.Err
      · exact absurd hee he
      · simp [hee]
  · intro h
    obtain ⟨h1, h2, h3⟩ := h
    refine ⟨?_, ?_, ?_⟩
    · intro hact
      have hne : wr.Action ≠ "respond" ∧ wr.Action ≠ "error" := by
        constructor
        · intro hc
          rcases hact with hact | hact <;>
            simp [wasmToResult, hc, ParseAction] at hact
        · intro hc
          rcases hact with hact | hact <;>
            simp [wasmToResult, hc, ParseAction] at hact
      obtain ⟨hr, he⟩ := h3 hne.1 hne.2
      simp [wasmToResult, hr, he]
    · intro hact
      have : wr.Action = "respond" := by
        apply ParseAction_eq_respond
        simpa [wasmToResult] using hact
      have hr := h1 this
      cases hrr : wr.Response
      · exact absurd hrr hr
      · simp [wasmToResult, hrr]
    · intro hact
      have : wr.Action = "error" := by
        apply ParseAction_eq_error
        simpa [wasmToResult] using hact
      have he := h2 this
      cases hee : wr.Error
      · exact absurd hee he
      · simp [wasmToResult, hee]

/-- C2 witness: a well-formed `Respond` result encodes to a well-formed
wire result, and a well-formed `"drop"` wire result decodes to a
well-formed domain result. -/
theorem result_codec_preserves_wellformedness_witness :
    WasmResultWellFormed (resultToWasm
      { Action := Action.Respond, Response := some { Data := [], Meta := [] }, Err := none }) ∧
    ResultWellFormed (wasmToResult
      { Action := "drop", Response := none, Error := none }) :=
  ⟨(result_codec_preserves_wellformedness
      { Action := Action.Respond, Response := some { Data := [], Meta := [] }, Err := none }
      { Action := "drop", Response := none, Error := none }).2.2.2.2.1 (by decide),
   (result_codec_preserves_wellformedness
      { Action := Action.Respond, Response := some { Data := [], Meta := [] }, Err := none }
      { Action := "drop", Response := none, Error := none }).2.2.2.2.2 (by decide)⟩

end Wafer

namespace Wafer

theorem handleData_is_marshalled_result
    (um : List Char → Except String WasmMessage) (reg : Option BlockImpl)
    (input : List Char) :
    ∃ wr : WasmResult, handleData um reg input = marshalWasmResult wr := by
  unfold handleData
  cases reg with
  | none => exact ⟨_, rfl⟩
  | some block =>
    cases um input with
    | error e => exact ⟨_, rfl⟩
    | ok wmsg => exact ⟨_, rfl⟩

theorem handleData_ne_nil (um : List Char → Except String WasmMessage)
    (reg : Option BlockImpl) (input : List Char) :
    handleData um reg input ≠ [] := by
  obtain ⟨wr, hw⟩ := handleData_is_marshalled_result um reg input
  rw [hw]
  exact marshal_result_ne_nil wr

/-- C1: for every input and every registration state, the `handle` export
returns a non-zero packed value pointing to the JSON encoding of a wire
`WasmResult`; on an internal failure the encoded result has action
`"error"` with error code `"internal"`, and with no block registered it is
exactly the envelope whose decoding is the Result with action `Error` and
error `internal`/"no block registered".  (`json.Marshal` of a `WasmResult`
is total, so the result-encode-failure branch of the source is
unreachable.) -/
theorem handle_envelope
    (um : List Char → Except String WasmMessage) (addrOf : List Char → Nat)
    (reg : Option BlockImpl) (pinned0 : List (List Char)) (input : List Char) :
    (∃ wr : WasmResult, handleData um reg input = marshalWasmResult wr) ∧
    (handle um addrOf reg pinned0 input).1 ≠ 0 ∧
    (handle um addrOf reg pinned0 input =
      packPtrLen (addrOf (handleData um reg input)) [] (handleData um reg input)) ∧
    (reg = none →
      handleData um reg input =
        marshalWasmResult
          { Action := "error", Response := none,
            Error := some
              { Code := "internal", Message := "no block registered", Meta := [] } } ∧
      wasmToResult
          { Action := "error", Response := none,
            Error := some
              { Code := "internal", Message := "no block registered", Meta := [] } } =
        { Action := Action.ActionError, Response := none,
          Err := some
            { Code := "internal", Message := "no block registered", Meta := [] } }) ∧
    (∀ block e, reg = some block → um input = Except.error e →
      handleData um reg input =
        marshalWasmResult
          { Action := "error", Response := none,
            Error := some
              { Code := "internal",
                Message := "failed to unmarshal message: " ++ e, Meta := [] } }) ∧
    (∀ block wmsg, reg = some block → um input = Except.ok wmsg →
      handleData um reg input =
        marshalWasmResult (resultToWasm (block.Handle (wasmToMessage wmsg)))) := by
  refine ⟨handleData_is_marshalled_result um reg input, ?_, rfl, ?_, ?_, ?_⟩
  · have hne : (handleData um reg input).length ≠ 0 := by
      simpa using handleData_ne_nil um reg input
    unfold handle packPtrLen
    simp only [if_neg hne]
    exact or_ne_zero_right _ _ hne
  · intro h
    subst h
    exact ⟨rfl, rfl⟩
  · intro block e hreg he
    subst hreg
    unfold handleData
    rw [he]
  · intro block wmsg hreg hok
    subst hreg
    unfold handleData
    rw [hok]

/-- C1 witness: calling `handle` with no block registered returns a
non-zero packed value and the no-block-registered error envelope. -/
theorem handle_envelope_witness :
    (handle (fun _ => Except.error "bad") (fun _ => 4096) none [] []).1 ≠ 0 ∧
    handleData (fun _ => Except.error "bad") none [] =
      marshalWasmResult
        { Action := "error", Response := none,
          Error := some
            { Code := "internal", Message := "no block registered", Meta := [] } } := by
  have h := handle_envelope (fun _ => Except.error "bad") (fun _ => 4096) none [] []
  exact ⟨h.2.1, (h.2.2.2.1 rfl).1⟩

end Wafer

namespace Wafer

/-- C7: the `lifecycle` export always returns a packed pointer to a
minimal `lifecycleResponse` envelope, never a full Result: handler error
with message `m` yields `{ok := false, error := m}`, no block registered
and decode failure yield the corresponding messages, and a nil handler
error yields `{ok := true}` whose rendering is the single-member object
with no error field. -/
theorem lifecycle_minimal_envelope
    (um : List Char → Except String WasmLifecycleEvent) (addrOf : List Char → Nat)
    (reg : Option BlockImpl) (pinned0 : List (List Char)) (input : List Char) :
    (∃ lr : lifecycleResponse, lifecycleData um reg input = marshalLifecycleResponse lr) ∧
    (lifecycle um addrOf reg pinned0 input =
      packPtrLen (addrOf (lifecycleData um reg input)) [] (lifecycleData um reg input)) ∧
    (reg = none →
      lifecycleData um reg input =
        marshalLifecycleResponse { OK := false, Error := "no block registered" }) ∧
    (∀ block e, reg = some block → um input = Except.error e →
      lifecycleData um reg input =
        marshalLifecycleResponse
          { OK := false, Error := "failed to unmarshal lifecycle event: " ++ e }) ∧
    (∀ block wevent m, reg = some block → um input = Except.ok wevent →
      block.Lifecycle (wasmToLifecycleEvent wevent) = some m →
      lifecycleData um reg input = marshalLifecycleResponse { OK := false, Error := m }) ∧
    (∀ block wevent, reg = some block → um input = Except.ok wevent →
      block.Lifecycle (wasmToLifecycleEvent wevent) = none →
      lifecycleData um reg input = marshalLifecycleResponse { OK := true, Error := "" } ∧
      marshalLifecycleResponse { OK := true, Error := "" } =
        jsonObj [jsonField "ok" ("true".data)]) := by
  refine ⟨?_, rfl, ?_, ?_, ?_, ?_⟩
  · cases reg with
    | none => exact ⟨{ OK := false, Error := "no block registered" }, rfl⟩
    | some block =>
      rcases hum : um input with e | wevent
      · exact ⟨{ OK := false, Error := "failed to unmarshal lifecycle event: " ++ e },
          by simp only [lifecycleData, hum]⟩
      · rcases hlc : block.Lifecycle (wasmToLifecycleEvent wevent) with _ | m
        · exact ⟨{ OK := true, Error := "" }, by simp only [lifecycleData, hum, hlc]⟩
        · exact ⟨{ OK := false, Error := m }, by simp only [lifecycleData, hum, hlc]⟩
  · intro h
    subst h
    rfl
  · intro block e hreg he
    subst hreg
    unfold lifecycleData
    rw [he]
  · intro block wevent m hreg hok hlc
    subst hreg
    simp only [lifecycleData, hok, hlc]
  · intro block wevent hreg hok hlc
    subst hreg
    simp only [lifecycleData, hok, hlc]
    exact ⟨trivial, rfl⟩

/-- C7 witness: a registered block whose lifecycle handler fails with
"boom" makes the export return the `{ok := false, error := "boom"}`
envelope. -/
theorem lifecycle_minimal_envelope_witness :
    lifecycleData (fun _ => Except.ok { «Type» := "init", Data := "" })
        (some { Info := { Name := "n", Version := "1", Interface := "i", Summary := "s",
                          InstanceMode := InstanceMode.PerNode, AllowedModes := [] },
                Handle := fun _ => { Action := Action.Continue, Response := none, Err := none },
                Lifecycle := fun _ => some "boom" }) [] =
      marshalLifecycleResponse { OK := false, Error := "boom" } := by
  have h := lifecycle_minimal_envelope (fun _ => Except.ok { «Type» := "init", Data := "" })
    (fun _ => 4096)
    (some { Info := { Name := "n", Version := "1", Interface := "i", Summary := "s",
                      InstanceMode := InstanceMode.PerNode, AllowedModes := [] },
            Handle := fun _ => { Action := Action.Continue, Response := none, Err := none },
            Lifecycle := fun _ => some "boom" }) [] []
  exact h.2.2.2.2.1 _ _ "boom" rfl rfl rfl

end Wafer

namespace Wafer

/-- C4: evaluation of the code at the failing input.  `malloc` does NOT
clear the pinned-buffer set at entry, although the source's own comment on
`pinnedData` states that each exported function clears the slice at the
start of its execution: after `malloc(8)` the buffer pinned by the
previous export call is still pinned.  (`info`, `handle` and `lifecycle`
do clear the set: see the `packPtrLen _ [] _` form of `handle` and
`lifecycle`.) -/
theorem malloc_retains_previous_pinned :
    malloc 4096 [['x']] 8 = (some 4096, [['x']]) := rfl

/-- C8 counterexample: `malloc 0` is not total — `&buf[0]` on the
zero-length allocation panics (modelled as `none`), so the
address-of-first-element step is *not* reachable for size 0. -/
theorem malloc_zero_size_panics :
    (malloc 4096 [] 0).1 = none := rfl

/-- C8 (amended): for every size > 0, `malloc` returns the address of
the fresh `size`-byte allocation without trapping and without touching
any other state; for size 0 the `&buf[0]` step panics (see the
counterexample). -/
theorem malloc_positive_size_total (addr : Nat) (pinned : List (List Char)) (size : Nat)
    (h : 0 < size) :
    (malloc addr pinned size).1 = some addr ∧ (malloc addr pinned size).2 = pinned := by
  unfold malloc
  refine ⟨?_, rfl⟩
  simp only [if_neg (by omega : ¬ size = 0)]

/-- C8 witness: `malloc 8` returns the allocation's address. -/
theorem malloc_positive_size_total_witness :
    (malloc 4096 [] 8).1 = some 4096 :=
  (malloc_positive_size_total 4096 [] 8 (by norm_num)).1

/-- C9: for every wire Message, Response or LifecycleEvent whose data
field is a non-empty string rejected by the base64 decoder, decoding
succeeds (the converters are total) and silently yields empty/nil data:
a corrupted payload is dropped, never surfaced as an error. -/
theorem corrupt_base64_dropped :
    (∀ wm : WasmMessage, wm.Data ≠ "" → DecodeString wm.Data = none →
      (wasmToMessage wm).Data = []) ∧
    (∀ wr : WasmResponse, wr.Data ≠ "" → DecodeString wr.Data = none →
      (wasmToResponse wr).Data = []) ∧
    (∀ we : WasmLifecycleEvent, we.Data ≠ "" → DecodeString we.Data = none →
      (wasmToLifecycleEvent we).Data = []) := by
  refine ⟨?_, ?_, ?_⟩ <;> intro x h1 h2 <;>
    simp [wasmToMessage, wasmToResponse, wasmToLifecycleEvent, h1, h2]

/-- C9 witness: the invalid base64 string "####" is dropped to nil data
by all three decoders. -/
theorem corrupt_base64_dropped_witness :
    (wasmToMessage { Kind := "k", Data := "####", Meta := [] }).Data = [] ∧
    (wasmToResponse { Data := "####", Meta := [] }).Data = [] ∧
    (wasmToLifecycleEvent { «Type» := "init", Data := "####" }).Data = [] :=
  ⟨corrupt_base64_dropped.1 _ (by decide) (by decide),
   corrupt_base64_dropped.2.1 _ (by decide) (by decide),
   corrupt_base64_dropped.2.2 _ (by decide) (by decide)⟩

/-- C10: for every message, when the host's send import returns the
zero packed value (length 0), `Context.Send` returns the Result with
action `Continue` and both payloads absent. -/
theorem send_zero_packed_continue
    (umr : List Char → Except String WasmResult) (host : List Char → Nat × List Char)
    (msg : Message) (h : (host (marshalWasmMessage (messageToWasm msg))).1 = 0) :
    Send umr host msg = { Action := Action.Continue, Response := none, Err := none } := by
  unfold Send
  simp only [h]
  simp

/-- C10 witness: a host returning packed 0 makes `Send` return the bare
Continue result. -/
theorem send_zero_packed_continue_witness :
    Send (fun _ => Except.error "ignored") (fun _ => (0, [])) { Kind := "k", Data := [], Meta := [] } =
      { Action := Action.Continue, Response := none, Err := none } :=
  send_zero_packed_continue (fun _ => Except.error "ignored") (fun _ => (0, []))
    { Kind := "k", Data := [], Meta := [] } rfl

/-- C3: for every non-empty buffer, `packPtrLen` packs the buffer's
address in the high 32 bits and its length in the low 32 bits of one
64-bit value, so unpacking (as `Context.Send` does) recovers exactly the
address and the length; the empty buffer packs to 0. -/
theorem packPtrLen_roundtrip (addr : Nat) (data : List Char) (pinned : List (List Char))
    (ha : addr < 2 ^ 32) (hl : data.length < 2 ^ 32) :
    (data ≠ [] →
      unpackPtr (packPtrLen addr pinned data).1 = addr ∧
      unpackLen (packPtrLen addr pinned data).1 = data.length) ∧
    (data = [] → (packPtrLen addr pinned data).1 = 0) :=
  packPtrLen_spec addr pinned data ha hl

/-- C3 witness: packing a 3-byte buffer at address 4096 unpacks to
(4096, 3). -/
theorem packPtrLen_roundtrip_witness :
    unpackPtr (packPtrLen 4096 [] ['a', 'b', 'c']).1 = 4096 ∧
    unpackLen (packPtrLen 4096 [] ['a', 'b', 'c']).1 = 3 := by
  have h := (packPtrLen_roundtrip 4096 ['a', 'b', 'c'] [] (by norm_num) (by norm_num)).1
    (by simp)
  simpa using h

end Wafer
